import Mathlib

/-!
Shallow embedding of `src/Server.js` (Foxnut_APIs_Backeneds): the
recommendation pipeline of the `/recommend` endpoint — query construction,
result scoring, gathering with per-query failure isolation, deduplication,
stable ranking, fallback payload construction, and the TTL response cache.
-/

namespace Foxnut

/-! ## JS numbers (idealized)

`Number(...)`, `Math.round`, `Math.min`, `Math.max` as used on the
`calories` parameter.  Finite doubles are idealized as rationals; `NaN`
and the infinities are explicit, since `Number(<non-numeric string>)`
yields `NaN` and every arithmetic/comparison treats it specially. -/

inductive JSNum where
  | nan
  | posInf
  | negInf
  | fin (q : ℚ)
deriving DecidableEq, Repr

/-- `Math.round x = ⌊x + 0.5⌋` for finite doubles; `NaN`/infinities pass through. -/
def jsRound : JSNum → JSNum
  | .nan => .nan
  | .posInf => .posInf
  | .negInf => .negInf
  | .fin q => .fin ((⌊q + 1/2⌋ : ℤ) : ℚ)

/-- `Math.min a b`: `NaN` when either argument is `NaN`. -/
def jsMin : JSNum → JSNum → JSNum
  | .nan, _ => .nan
  | _, .nan => .nan
  | .negInf, _ => .negInf
  | _, .negInf => .negInf
  | .posInf, b => b
  | a, .posInf => a
  | .fin a, .fin b => .fin (min a b)

/-- `Math.max a b`: `NaN` when either argument is `NaN`. -/
def jsMax : JSNum → JSNum → JSNum
  | .nan, _ => .nan
  | _, .nan => .nan
  | .posInf, _ => .posInf
  | _, .posInf => .posInf
  | .negInf, b => b
  | a, .negInf => a
  | .fin a, .fin b => .fin (max a b)

/-- JS `<=` on numbers: false whenever either side is `NaN`. -/
def jsLe : JSNum → JSNum → Bool
  | .nan, _ => false
  | _, .nan => false
  | .negInf, _ => true
  | _, .posInf => true
  | .posInf, _ => false
  | _, .negInf => false
  | .fin a, .fin b => decide (a ≤ b)

/-- String interpolation `${x}` of a JS number (only integral or non-finite
values reach it in this program). -/
def jsNumToString : JSNum → String
  | .nan => "NaN"
  | .posInf => "Infinity"
  | .negInf => "-Infinity"
  | .fin q => if q.den = 1 then toString q.num else toString q

/-- The raw `calories` query parameter as `Number(req.query.calories || 500)`
(Server.js line 94) sees it. `undefined` (absent) and the empty string are
falsy, so `|| 500` replaces them; any other string goes through `Number`,
giving a finite value, an infinity, or `NaN`. -/
inductive RawCalories where
  | absent
  | emptyStr
  | numStr (q : ℚ)
  | infStr
  | negInfStr
  | nonNumeric
deriving DecidableEq, Repr

def caloriesNumber : RawCalories → JSNum
  | .absent => .fin 500
  | .emptyStr => .fin 500
  | .numStr q => .fin q
  | .infStr => .posInf
  | .negInfStr => .negInf
  | .nonNumeric => .nan

/-- `Math.max(300, Math.min(800, Math.round(calories)))` (Server.js line 98). -/
def clampCalories (c : JSNum) : JSNum :=
  jsMax (.fin 300) (jsMin (.fin 800) (jsRound c))

/-- The `targetMeal` value of one request. -/
def resolveTargetMeal (raw : RawCalories) : JSNum :=
  clampCalories (caloriesNumber raw)

/-- `String(req.query.x || dflt)` (Server.js lines 95-96): the parameter when
present and non-empty, the default otherwise (the empty string is falsy). -/
def resolveParam (raw : Option String) (dflt : String) : String :=
  match raw with
  | none => dflt
  | some s => if s = "" then dflt else s

/-! ## String primitives

JS `toLowerCase` (the program's titles and vocabulary are ASCII, so ASCII
case-folding is the faithful model) and `String.prototype.includes`. -/

def chLower (c : Char) : Char :=
  if 65 ≤ c.toNat ∧ c.toNat ≤ 90 then Char.ofNat (c.toNat + 32) else c

/-- `s.toLowerCase()`. -/
def strToLower (s : String) : String := String.mk (s.toList.map chLower)

def isPrefList : List Char → List Char → Bool
  | [], _ => true
  | _ :: _, [] => false
  | n :: ns, h :: hs => n == h && isPrefList ns hs

def hasSubList (needle : List Char) : List Char → Bool
  | [] => isPrefList needle []
  | h :: hs => isPrefList needle (h :: hs) || hasSubList needle hs

/-- `hay.includes(needle)`. -/
def strIncludes (hay needle : String) : Bool :=
  hasSubList needle.toList hay.toList

/-! ## Result Scorer (Server.js lines 29-51) -/

def POSITIVE_TOKENS : List String :=
  ["salad", "grilled", "bowl", "quinoa", "sprouts", "tofu", "paneer", "brown rice",
   "roasted", "steamed", "greens", "lean", "protein", "soup", "dal", "millet"]

def NEGATIVE_TOKENS : List String :=
  ["fried", "butter", "cream", "creamy", "cheese", "biryani", "burger", "pizza",
   "fries", "sweet"]

def FLAVOR_TOKENS : List String :=
  ["tikka", "peri", "tangy", "masala", "grill"]

structure ScoreResult where
  score : ℤ
  reasons : List String
deriving DecidableEq, Repr

/-- `scoreTitle(title, taste)`: +2 and a reason per contained positive token,
−2 and a reason per contained negative token, +1 (no reason) per contained
flavor token when taste is `tasty` or `balanced`, flat +1 when `healthy`.
Matching is case-insensitive substring containment on the lowercased title. -/
def scoreTitle (title taste : String) : ScoreResult :=
  let t := strToLower title
  let pos := POSITIVE_TOKENS.foldl
    (fun (acc : ScoreResult) k =>
      if strIncludes t k then ⟨acc.score + 2, acc.reasons ++ ["has “" ++ k ++ "”"]⟩
      else acc)
    (⟨0, []⟩ : ScoreResult)
  let neg := NEGATIVE_TOKENS.foldl
    (fun (acc : ScoreResult) k =>
      if strIncludes t k then ⟨acc.score - 2, acc.reasons ++ ["avoids “" ++ k ++ "”"]⟩
      else acc)
    pos
  let flav :=
    if taste = "tasty" ∨ taste = "balanced" then
      FLAVOR_TOKENS.foldl (fun s k => if strIncludes t k then s + 1 else s) neg.score
    else neg.score
  let total := if taste = "healthy" then flav + 1 else flav
  ⟨total, neg.reasons⟩

/-! ## Query Builder (Server.js lines 53-72) -/

def LIGHTER_BASE : List String :=
  ["grilled salad", "protein bowl", "quinoa bowl", "tofu salad", "paneer salad"]

def HIGHER_PROTEIN_BASE : List String :=
  ["high protein bowl", "grilled chicken bowl", "paneer bowl", "tofu bowl", "millet bowl"]

/-- The two marketplace site-restriction tokens (Server.js line 61). -/
def SITES : List String := ["site:swiggy.com", "site:zomato.com"]

def tasteBoostOf (taste : String) : String :=
  if taste = "tasty" then "tasty" else if taste = "healthy" then "healthy" else "balanced"

/-- One final query string: `` `${b} ${tasteBoost} ${s} ${area}` ``. -/
def mkQuery (b tasteBoost s area : String) : String :=
  b ++ " " ++ tasteBoost ++ " " ++ s ++ " " ++ area

/-- `buildQueries(targetCalories, activity, taste)`: base-phrase outer loop,
marketplace inner loop, pushing onto an accumulator.  `activity` is threaded
through but unused, as in the source. -/
def buildQueries (targetCalories : JSNum) (activity taste : String) : List String :=
  let base := if jsLe targetCalories (.fin 450) then LIGHTER_BASE else HIGHER_PROTEIN_BASE
  let area := "Bangalore"
  let tasteBoost := tasteBoostOf taste
  base.foldl (fun qs b => SITES.foldl (fun qs s => qs ++ [mkQuery b tasteBoost s area]) qs) []

/-! ## Search Gateway (Server.js lines 74-88, 105-115)

`cseSearch` is network code; one call's outcome, with the provider
configured, is either `.error msg` (the `throw` on a non-ok status, a
network failure or a malformed payload) or `.ok items`, the
marketplace-filtered item list (empty when `json.items` is missing).
The oracle maps each query string to that outcome. -/

structure RawResult where
  title : String
  link : String
  snippet : String
deriving DecidableEq, Repr

abbrev QueryOutcome := Except String (List RawResult)

/-- JS truthiness of `CSE_KEY && CSE_ID`: both strings non-empty. -/
def cseConfigured (cseKey cseId : String) : Bool :=
  !(cseKey == "") && !(cseId == "")

/-- The gather loop body (lines 108-114): successes append their items in
query order, caught failures contribute nothing. -/
def mergeOutcomes : List QueryOutcome → List RawResult
  | [] => []
  | .ok items :: rest => items ++ mergeOutcomes rest
  | .error _ :: rest => mergeOutcomes rest

/-- `results` after the gather loop: empty when the provider is not
configured (the loop body is skipped), else the merge over
`queries.slice(0, 6)`. -/
def gatherResults (confd : Bool) (oracle : String → QueryOutcome)
    (queries : List String) : List RawResult :=
  if confd then mergeOutcomes ((queries.take 6).map oracle) else []

/-! ## Deduplication (Server.js lines 144-150) -/

/-- The `results.filter` with the mutable `seen` set, `seen` made explicit. -/
def dedupAux (seen : List String) : List RawResult → List RawResult
  | [] => []
  | x :: xs =>
    if x.link ∈ seen then dedupAux seen xs
    else x :: dedupAux (x.link :: seen) xs

def dedupByLink (l : List RawResult) : List RawResult := dedupAux [] l

/-! ## Scoring and stable ranking (Server.js lines 152-162)

`Array.prototype.sort` with `(a, b) => b.score - a.score` is, per the
ECMAScript specification, a stable sort; a stable sort's output is
uniquely determined by the comparator and the input order, so the
insertion sort below is the faithful model. -/

structure Scored where
  name : String
  link : String
  snippet : String
  score : ℤ
  reasons : List String
deriving DecidableEq, Repr

def mkScored (taste : String) (r : RawResult) : Scored :=
  let sr := scoreTitle r.title taste
  ⟨r.title, r.link, r.snippet, sr.score, sr.reasons⟩

def insertDesc (x : Scored) : List Scored → List Scored
  | [] => [x]
  | y :: ys => if x.score < y.score then y :: insertDesc x ys else x :: y :: ys

def sortByScoreDesc : List Scored → List Scored
  | [] => []
  | x :: xs => insertDesc x (sortByScoreDesc xs)

/-! ## Picks and payloads (Server.js lines 117-141, 164-179) -/

structure Pick where
  name : String
  link : String
  reason : String
  source : String
deriving DecidableEq, Repr

structure Payload where
  picks : List Pick
  targetCalories : JSNum
  activity : String
  taste : String
  usedCSE : Bool
deriving DecidableEq, Repr

/-- A pick of the scored path (lines 164-169); the reason joins the first 3
justifications, or the literal `overall balance` when there are none. -/
def scoredPick (targetMeal : JSNum) (activity : String) (x : Scored) : Pick :=
  let joined := String.intercalate ", " (x.reasons.take 3)
  { name := x.name
    link := x.link
    reason := "Chosen for: " ++ (if joined = "" then "overall balance" else joined) ++
      "; target ~" ++ jsNumToString targetMeal ++ " kcal."
    source := "Heuristic v1 + " ++ activity ++ " activity" }

/-- `encodeURIComponent`: percent-encode every UTF-8 byte outside the
unreserved set `A-Z a-z 0-9 - _ . ! ~ * ' ( )`. -/
def hexDigitCh (n : ℕ) : Char :=
  if n < 10 then Char.ofNat (48 + n) else Char.ofNat (55 + n)

def uriUnreserved (b : ℕ) : Bool :=
  (65 ≤ b && b ≤ 90) || (97 ≤ b && b ≤ 122) || (48 ≤ b && b ≤ 57) ||
  b == 45 || b == 95 || b == 46 || b == 33 || b == 126 || b == 42 ||
  b == 39 || b == 40 || b == 41

def utf8BytesOf (n : ℕ) : List ℕ :=
  if n < 128 then [n]
  else if n < 2048 then [192 + n / 64, 128 + n % 64]
  else if n < 65536 then [224 + n / 4096, 128 + n / 64 % 64, 128 + n % 64]
  else [240 + n / 262144, 128 + n / 4096 % 64, 128 + n / 64 % 64, 128 + n % 64]

def encodeByteCh (b : ℕ) : List Char :=
  if uriUnreserved b then [Char.ofNat b] else ['%', hexDigitCh (b / 16), hexDigitCh (b % 16)]

def encodeURIComponent (s : String) : String :=
  String.mk ((s.toList.flatMap (fun c => utf8BytesOf c.toNat)).flatMap encodeByteCh)

def isNonSpace (c : Char) : Bool := !c.isWhitespace

/-- `q.replace(/site:\S+/g, '')`, fuelled: global, left-to-right,
non-overlapping removal of `site:` followed by a maximal non-empty run of
non-space characters.  Every step consumes at least one character, so fuel
equal to the list's length (as `stripSiteTokens` passes) never runs out. -/
def stripSiteFuel : ℕ → List Char → List Char
  | _, [] => []
  | 0, l => l
  | fuel + 1, c :: cs =>
    if isPrefList "site:".toList (c :: cs) &&
        (match (c :: cs).drop 5 with | [] => false | d :: _ => isNonSpace d) then
      stripSiteFuel fuel (((c :: cs).drop 5).dropWhile isNonSpace)
    else
      c :: stripSiteFuel fuel cs

def stripSiteTokens (l : List Char) : List Char := stripSiteFuel l.length l

/-- Case-insensitive prefix test, for `/bangalore/i`. -/
def isPrefCI : List Char → List Char → Bool
  | [], _ => true
  | _ :: _, [] => false
  | n :: ns, h :: hs => chLower n == chLower h && isPrefCI ns hs

/-- `.replace(/bangalore/i, '')`: remove the first case-insensitive
occurrence, if any. -/
def stripBangalore : List Char → List Char
  | [] => []
  | c :: cs =>
    if isPrefCI "bangalore".toList (c :: cs) then (c :: cs).drop 9
    else c :: stripBangalore cs

/-- JS `.trim()`. -/
def trimChars (cs : List Char) : List Char :=
  ((cs.dropWhile Char.isWhitespace).reverse.dropWhile Char.isWhitespace).reverse

/-- The display label of one fallback entry (line 120). -/
def fallbackLabel (q : String) : String :=
  String.mk (trimChars (stripBangalore (stripSiteTokens q.toList)))

/-- One entry of `alt` (lines 119-127). -/
def fallbackAlt (q : String) : RawResult :=
  { title := fallbackLabel q
    link := "https://www.google.com/search?q=" ++ encodeURIComponent q
    snippet := "Open to see matching options on Swiggy/Zomato (Bengaluru)." }

/-- A pick of the fallback path (lines 129-134). -/
def fallbackPick (targetMeal : JSNum) (taste : String) (x : RawResult) : Pick :=
  { name := x.title
    link := x.link
    reason := "Matches your target ~" ++ jsNumToString targetMeal ++ " kcal and " ++
      taste ++ " preference."
    source := "Heuristic v1 (fallback search links)" }

/-- The fallback payload (lines 117-141). -/
def fallbackPayload (targetMeal : JSNum) (activity taste : String)
    (queries : List String) : Payload :=
  { picks := (((queries.take 6).map fallbackAlt).take 5).map (fallbackPick targetMeal taste)
    targetCalories := targetMeal
    activity := activity
    taste := taste
    usedCSE := false }

/-- The scored-path payload (lines 144-179). -/
def scoredPayload (targetMeal : JSNum) (activity taste : String)
    (results : List RawResult) : Payload :=
  let ranked := sortByScoreDesc ((dedupByLink results).map (mkScored taste))
  { picks := (ranked.take 5).map (scoredPick targetMeal activity)
    targetCalories := targetMeal
    activity := activity
    taste := taste
    usedCSE := true }

/-- `queries` of one request (line 99), resolved from the raw parameters. -/
def resolvedQueries (cal : RawCalories) (rawActivity rawTaste : Option String) : List String :=
  buildQueries (resolveTargetMeal cal) (resolveParam rawActivity "moderate")
    (resolveParam rawTaste "balanced")

/-- `results` of one request after the gather loop (lines 105-115). -/
def resolvedResults (cseKey cseId : String) (oracle : String → QueryOutcome)
    (cal : RawCalories) (rawActivity rawTaste : Option String) : List RawResult :=
  gatherResults (cseConfigured cseKey cseId) oracle (resolvedQueries cal rawActivity rawTaste)

/-- The `/recommend` pipeline on a cache miss (lines 92-179): resolve the
request target, build the queries, gather (provider permitting), and branch
on `!CSE_KEY || !CSE_ID || results.length === 0`.  The handler's local
`const`s are the named definitions above. -/
def recommend (cseKey cseId : String) (oracle : String → QueryOutcome)
    (cal : RawCalories) (rawActivity rawTaste : Option String) : Payload :=
  if !cseConfigured cseKey cseId ||
      (resolvedResults cseKey cseId oracle cal rawActivity rawTaste).isEmpty then
    fallbackPayload (resolveTargetMeal cal) (resolveParam rawActivity "moderate")
      (resolveParam rawTaste "balanced") (resolvedQueries cal rawActivity rawTaste)
  else
    scoredPayload (resolveTargetMeal cal) (resolveParam rawActivity "moderate")
      (resolveParam rawTaste "balanced")
      (resolvedResults cseKey cseId oracle cal rawActivity rawTaste)

/-! ## Response Cache (Server.js lines 16-26) -/

def CACHE_TTL_MS : ℤ := 10 * 60 * 1000

structure CacheEntry (α : Type) where
  v : α
  t : ℤ
deriving DecidableEq, Repr

/-- The in-memory `Map`, as the partial function a key lookup sees. -/
def CacheStore (α : Type) : Type := String → Option (CacheEntry α)

/-- `cacheGet(k)` at time `now`: miss on absence; on a hit older than the
TTL (strictly), delete the entry and miss; otherwise return the value.
Returns the result together with the store as the call leaves it. -/
def cacheGet {α : Type} (store : CacheStore α) (k : String) (now : ℤ) :
    Option α × CacheStore α :=
  match store k with
  | none => (none, store)
  | some hit =>
    if now - hit.t > CACHE_TTL_MS then
      (none, fun k' => if k' = k then none else store k')
    else
      (some hit.v, store)

/-- `cacheSet(k, v)` at time `now`: unconditional overwrite, stamped `now`. -/
def cacheSet {α : Type} (store : CacheStore α) (k : String) (v : α) (now : ℤ) :
    CacheStore α :=
  fun k' => if k' = k then some ⟨v, now⟩ else store k'

/-! ## Theorems -/

/-- C1, the example as the spec states it, is false on the code: the title
also contains the positive token `paneer` (+2, a third reason) and the
flavor token `grill` (+1, beyond `tikka`), so the score is not 5 and there
are not exactly two reasons. -/
theorem scoreTitle_spec_example_false :
    ¬((scoreTitle "Grilled Paneer Tikka Salad" "tasty").score = 5 ∧
      (scoreTitle "Grilled Paneer Tikka Salad" "tasty").reasons.length = 2) := by
  decide

/-- C1 (amended): title `Grilled Paneer Tikka Salad` with taste `tasty`
scores 8 — positive tokens `salad`, `grilled`, `paneer` (+6, three reasons
in scan order), no negative token, flavor tokens `tikka` and `grill` (+2,
no reasons recorded). -/
theorem scoreTitle_example :
    scoreTitle "Grilled Paneer Tikka Salad" "tasty" =
      ⟨8, ["has “salad”", "has “grilled”", "has “paneer”"]⟩ := by
  decide

/-- C3: for every post-clamp integer target, the Query Builder emits exactly
the 10 queries `base × marketplace` in base-phrase-major, marketplace-minor
order, drawing from the lighter set iff the target is ≤ 450. -/
theorem buildQueries_count_order_selection (n : ℤ) (activity taste : String) :
    buildQueries (.fin (n : ℚ)) activity taste =
      (if n ≤ 450 then LIGHTER_BASE else HIGHER_PROTEIN_BASE).flatMap
        (fun b => SITES.map (fun s => mkQuery b (tasteBoostOf taste) s "Bangalore")) ∧
    (buildQueries (.fin (n : ℚ)) activity taste).length = 10 := by
  by_cases h : n ≤ 450
  · have h450 : jsLe (JSNum.fin (n : ℚ)) (JSNum.fin 450) = true := by
      simp only [jsLe, decide_eq_true_eq]
      exact_mod_cast h
    refine ⟨?_, ?_⟩
    · simp only [buildQueries, h450, if_pos h]
      rfl
    · simp only [buildQueries, h450]
      rfl
  · have h450 : jsLe (JSNum.fin (n : ℚ)) (JSNum.fin 450) = false := by
      simp only [jsLe, decide_eq_false_iff_not]
      intro hq
      exact h (by exact_mod_cast hq)
    refine ⟨?_, ?_⟩
    · simp only [buildQueries, h450, if_neg h]
      rfl
    · simp only [buildQueries, h450]
      rfl

theorem dedupAux_sublist (seen : List String) (l : List RawResult) :
    List.Sublist (dedupAux seen l) l := by
  induction l generalizing seen with
  | nil => simp [dedupAux]
  | cons x xs ih =>
    rw [dedupAux]
    split
    · exact (ih seen).cons x
    · exact (ih (x.link :: seen)).cons₂ x

theorem dedupAux_filter (s : String) (l : List RawResult) (seen : List String) :
    (dedupAux seen l).filter (fun r => r.link == s) =
      if s ∈ seen then [] else (l.find? (fun r => r.link == s)).toList := by
  induction l generalizing seen with
  | nil => by_cases hs : s ∈ seen <;> simp [dedupAux, hs]
  | cons x xs ih =>
    rw [dedupAux]
    by_cases hx : x.link ∈ seen
    · rw [if_pos hx, ih]
      by_cases hs : s ∈ seen
      · simp [hs]
      · have hne : (x.link == s) = false := by
          simp only [beq_eq_false_iff_ne, ne_eq]
          intro he
          exact hs (he ▸ hx)
        simp [hs, List.find?_cons, hne]
    · rw [if_neg hx]
      by_cases hxs : x.link = s
      · subst hxs
        have hpx : (x.link == x.link) = true := by simp
        have hseen : x.link ∉ seen := hx
        rw [List.filter_cons]
        simp only [hpx, if_true]
        rw [ih]
        simp [List.find?_cons, hpx, hseen]
      · have hne : (x.link == s) = false := by
          simp only [beq_eq_false_iff_ne, ne_eq]
          exact hxs
        rw [List.filter_cons]
        simp only [hne, Bool.false_eq_true, if_false]
        rw [ih]
        by_cases hs : s ∈ seen
        · simp [hs, hxs]
        · have hs' : s ∉ (x.link :: seen) := by
            simp only [List.mem_cons, not_or]
            exact ⟨fun he => hxs he.symm, hs⟩
          simp [hs, hs', List.find?_cons, hne]

/-- C6: deduplication is by link with the first occurrence winning — the
survivors carrying link `s` are exactly the first gathered result with link
`s`, and the surviving list is a sublist (gather order preserved). -/
theorem dedupByLink_first_occurrence (l : List RawResult) (s : String) :
    (dedupByLink l).filter (fun r => r.link == s) =
      (l.find? (fun r => r.link == s)).toList ∧
    List.Sublist (dedupByLink l) l := by
  refine ⟨?_, dedupAux_sublist [] l⟩
  rw [dedupByLink, dedupAux_filter]
  simp

theorem insertDesc_perm (x : Scored) (l : List Scored) :
    List.Perm (insertDesc x l) (x :: l) := by
  induction l with
  | nil => rfl
  | cons y ys ih =>
    rw [insertDesc]
    split
    · exact (ih.cons y).trans (List.Perm.swap x y ys)
    · rfl

theorem sortByScoreDesc_perm (l : List Scored) :
    List.Perm (sortByScoreDesc l) l := by
  induction l with
  | nil => rfl
  | cons x xs ih => exact (insertDesc_perm x (sortByScoreDesc xs)).trans (ih.cons x)

theorem insertDesc_pairwise (x : Scored) (l : List Scored)
    (h : l.Pairwise (fun a b => b.score ≤ a.score)) :
    (insertDesc x l).Pairwise (fun a b => b.score ≤ a.score) := by
  induction l with
  | nil => simp [insertDesc]
  | cons y ys ih =>
    rw [List.pairwise_cons] at h
    rw [insertDesc]
    split
    · rename_i hlt
      rw [List.pairwise_cons]
      refine ⟨?_, ih h.2⟩
      intro z hz
      rcases List.mem_cons.mp ((insertDesc_perm x ys).mem_iff.mp hz) with hzx | hzy
      · subst hzx
        exact le_of_lt hlt
      · exact h.1 z hzy
    · rename_i hge
      rw [List.pairwise_cons]
      refine ⟨?_, List.pairwise_cons.mpr h⟩
      intro z hz
      rcases List.mem_cons.mp hz with hzy | hzys
      · subst hzy
        exact le_of_not_lt hge
      · exact le_trans (h.1 z hzys) (le_of_not_lt hge)

theorem insertDesc_filter_score (x : Scored) (l : List Scored) (c : ℤ) :
    (insertDesc x l).filter (fun z => z.score == c) =
      (x :: l).filter (fun z => z.score == c) := by
  induction l with
  | nil => rfl
  | cons y ys ih =>
    rw [insertDesc]
    split
    · rename_i hlt
      rw [List.filter_cons, List.filter_cons, List.filter_cons]
      by_cases hx : x.score = c
      · have hy : (y.score == c) = false := by
          simp only [beq_eq_false_iff_ne, ne_eq]
          intro he
          rw [hx] at hlt
          exact absurd he.le (not_le.mpr hlt)
        simp only [hy, Bool.false_eq_true, if_false]
        rw [ih, List.filter_cons]
      · have hx' : (x.score == c) = false := by
          simp only [beq_eq_false_iff_ne, ne_eq]
          exact hx
        rw [ih, List.filter_cons]
        simp only [hx', Bool.false_eq_true, if_false]
    · rfl

theorem sortByScoreDesc_filter_score (l : List Scored) (c : ℤ) :
    (sortByScoreDesc l).filter (fun z => z.score == c) =
      l.filter (fun z => z.score == c) := by
  induction l with
  | nil => rfl
  | cons x xs ih =>
    rw [sortByScoreDesc, insertDesc_filter_score, List.filter_cons, List.filter_cons, ih]

/-- C7: the scored path's ranking is a permutation sorted descending by
score, and it is stable — the equal-score results (any score `c`) keep
exactly their pre-sort relative order. -/
theorem ranking_sorted_and_stable (l : List Scored) :
    (sortByScoreDesc l).Pairwise (fun a b => b.score ≤ a.score) ∧
    List.Perm (sortByScoreDesc l) l ∧
    ∀ c : ℤ, (sortByScoreDesc l).filter (fun z => z.score == c) =
      l.filter (fun z => z.score == c) := by
  refine ⟨?_, sortByScoreDesc_perm l, fun c => sortByScoreDesc_filter_score l c⟩
  induction l with
  | nil => simp [sortByScoreDesc]
  | cons x xs ih => exact insertDesc_pairwise x (sortByScoreDesc xs) ih

/-- C8: a failing query anywhere in the batch contributes zero results and
does not abort the rest; the gather only ever consults the first 6 queries,
so at most 6 provider calls are issued per request. -/
theorem gateway_isolation_and_cap (pre post : List QueryOutcome) (e : String)
    (qs : List String) :
    mergeOutcomes (pre ++ Except.error e :: post) =
      mergeOutcomes pre ++ mergeOutcomes post ∧
    (qs.take 6).length ≤ 6 ∧
    ∀ (confd : Bool) (oracle : String → QueryOutcome),
      gatherResults confd oracle qs = gatherResults confd oracle (qs.take 6) := by
  refine ⟨?_, ?_, ?_⟩
  · induction pre with
    | nil => simp [mergeOutcomes]
    | cons o pre ih =>
      cases o with
      | ok items => simp [mergeOutcomes, ih, List.append_assoc]
      | error msg => simp [mergeOutcomes, ih]
  · simp [List.length_take]
  · intro confd oracle
    simp [gatherResults, List.take_take]

/-- C2: `usedCSE` is true iff the merged result set is non-empty (the scored
path), false iff no provider is configured or the merged set is empty (the
fallback path); and the flag determines which payload was actually built. -/
theorem recommend_usedCSE_path (cseKey cseId : String) (oracle : String → QueryOutcome)
    (cal : RawCalories) (a t : Option String) :
    ((recommend cseKey cseId oracle cal a t).usedCSE = true ↔
      resolvedResults cseKey cseId oracle cal a t ≠ []) ∧
    ((recommend cseKey cseId oracle cal a t).usedCSE = false ↔
      (cseConfigured cseKey cseId = false ∨
        resolvedResults cseKey cseId oracle cal a t = [])) ∧
    ((recommend cseKey cseId oracle cal a t).usedCSE = true →
      recommend cseKey cseId oracle cal a t =
        scoredPayload (resolveTargetMeal cal) (resolveParam a "moderate")
          (resolveParam t "balanced") (resolvedResults cseKey cseId oracle cal a t)) ∧
    ((recommend cseKey cseId oracle cal a t).usedCSE = false →
      recommend cseKey cseId oracle cal a t =
        fallbackPayload (resolveTargetMeal cal) (resolveParam a "moderate")
          (resolveParam t "balanced") (resolvedQueries cal a t)) := by
  cases hconf : cseConfigured cseKey cseId with
  | false =>
    have hres : resolvedResults cseKey cseId oracle cal a t = [] := by
      simp [resolvedResults, gatherResults, hconf]
    have hcond : (!cseConfigured cseKey cseId ||
        (resolvedResults cseKey cseId oracle cal a t).isEmpty) = true := by
      rw [hconf]
      rfl
    have hrec : recommend cseKey cseId oracle cal a t =
        fallbackPayload (resolveTargetMeal cal) (resolveParam a "moderate")
          (resolveParam t "balanced") (resolvedQueries cal a t) := by
      unfold recommend
      rw [if_pos hcond]
    rw [hrec, hres]
    simp [fallbackPayload]
  | true =>
    cases hres : resolvedResults cseKey cseId oracle cal a t with
    | nil =>
      have hcond : (!cseConfigured cseKey cseId ||
          (resolvedResults cseKey cseId oracle cal a t).isEmpty) = true := by
        rw [hconf, hres]
        rfl
      have hrec : recommend cseKey cseId oracle cal a t =
          fallbackPayload (resolveTargetMeal cal) (resolveParam a "moderate")
            (resolveParam t "balanced") (resolvedQueries cal a t) := by
        unfold recommend
        rw [if_pos hcond]
      rw [hrec]
      simp [fallbackPayload]
    | cons r rs =>
      have hcond : ¬((!cseConfigured cseKey cseId ||
          (resolvedResults cseKey cseId oracle cal a t).isEmpty) = true) := by
        rw [hconf, hres]
        simp
      have hrec : recommend cseKey cseId oracle cal a t =
          scoredPayload (resolveTargetMeal cal) (resolveParam a "moderate")
            (resolveParam t "balanced") (resolvedResults cseKey cseId oracle cal a t) := by
        unfold recommend
        rw [if_neg hcond]
      rw [hrec, hres]
      simp [scoredPayload]

/-- A one-entry store for exercising the cache at the TTL boundary. -/
def demoStore : CacheStore ℕ :=
  fun k => if k = "cacheKey" then some ⟨7, 0⟩ else none

/-- C4 counterexample: at age exactly 600000 ms the claim says the entry is
treated as absent (and evicted); the code's strict `>` keeps returning the
hit and leaves the entry in place. -/
theorem cacheGet_exact_ttl_returns_hit :
    (cacheGet demoStore "cacheKey" 600000).1 = some 7 ∧
    (cacheGet demoStore "cacheKey" 600000).2 "cacheKey" = some ⟨7, 0⟩ := by
  decide

/-- C4 (amended): `get` returns the stored payload iff an entry exists and
`now - storedAt ≤ 600000 ms`; it evicts and reports absent exactly when the
age strictly exceeds the TTL.  At age exactly 600000 ms the entry is still
returned. -/
theorem cacheGet_ttl_spec {α : Type} (store : CacheStore α) (k : String) (now : ℤ) :
    (store k = none → cacheGet store k now = (none, store)) ∧
    ∀ e, store k = some e →
      (now - e.t ≤ CACHE_TTL_MS → cacheGet store k now = (some e.v, store)) ∧
      (CACHE_TTL_MS < now - e.t →
        cacheGet store k now = (none, fun k' => if k' = k then none else store k')) := by
  constructor
  · intro h
    unfold cacheGet
    rw [h]
  · intro e he
    constructor
    · intro hle
      unfold cacheGet
      rw [he]
      exact if_neg (not_lt.mpr hle)
    · intro hgt
      unfold cacheGet
      rw [he]
      exact if_pos hgt

/-- C5: the claim fails on the code — a non-numeric, non-empty `calories`
string makes `Number(...)` return `NaN`, which passes through
`Math.round`/`Math.min`/`Math.max` unchanged, so the resolved target is not
an integer in [300, 800].  For genuinely numeric input the clamp does
produce an integer in range. -/
theorem resolveTargetMeal_nan_escape :
    resolveTargetMeal .nonNumeric = JSNum.nan ∧
    (∀ n : ℤ, resolveTargetMeal .nonNumeric ≠ .fin (n : ℚ)) ∧
    ∀ q : ℚ, ∃ n : ℤ, resolveTargetMeal (.numStr q) = .fin (n : ℚ) ∧
      300 ≤ n ∧ n ≤ 800 := by
  refine ⟨rfl, fun n h => JSNum.noConfusion h, ?_⟩
  intro q
  refine ⟨max 300 (min 800 ⌊q + 1/2⌋), ?_, le_max_left _ _, ?_⟩
  · show jsMax (.fin 300) (jsMin (.fin 800) (.fin ((⌊q + 1/2⌋ : ℤ) : ℚ))) = _
    simp only [jsMin, jsMax, JSNum.fin.injEq]
    push_cast
    rfl
  · exact max_le (by norm_num) (le_trans (min_le_left _ _) (by norm_num))

/-- C9 counterexample: the handler performs no enum validation — the raw
string `banana` is passed through as the resolved activity, which is none
of `light`, `moderate`, `high`. -/
theorem recommend_activity_not_validated :
    (recommend "" "" (fun _ => Except.error "down") .absent (some "banana") none).activity
      = "banana" ∧
    ¬("banana" = "light" ∨ "banana" = "moderate" ∨ "banana" = "high") := by
  decide

/-- C9 (amended): the resolved activity and taste in the payload are the raw
parameters passed through unvalidated, with defaulting (to `moderate` and
`balanced`) only when the parameter is absent or the empty string. -/
theorem recommend_params_resolution (cseKey cseId : String)
    (oracle : String → QueryOutcome) (cal : RawCalories) (a t : Option String) :
    (recommend cseKey cseId oracle cal a t).activity = resolveParam a "moderate" ∧
    (recommend cseKey cseId oracle cal a t).taste = resolveParam t "balanced" ∧
    (∀ d : String, resolveParam none d = d) ∧
    (∀ d : String, resolveParam (some "") d = d) ∧
    ∀ s d : String, s ≠ "" → resolveParam (some s) d = s := by
  refine ⟨?_, ?_, fun d => rfl, fun d => rfl, fun s d hs => by simp [resolveParam, hs]⟩
  · unfold recommend
    split
    · rfl
    · rfl
  · unfold recommend
    split
    · rfl
    · rfl

/-- C10: the scored path's picks are exactly the first `min(5, n)` ranked
entries mapped to picks — no score threshold is applied, so any entry of
the ranked top 5 (negative score included) appears among the picks. -/
theorem scoredPayload_top5_no_threshold (tm : JSNum) (activity taste : String)
    (results : List RawResult) :
    (scoredPayload tm activity taste results).picks =
      ((sortByScoreDesc ((dedupByLink results).map (mkScored taste))).take 5).map
        (scoredPick tm activity) ∧
    (scoredPayload tm activity taste results).picks.length =
      min 5 (dedupByLink results).length ∧
    ∀ x ∈ (sortByScoreDesc ((dedupByLink results).map (mkScored taste))).take 5,
      scoredPick tm activity x ∈ (scoredPayload tm activity taste results).picks := by
  refine ⟨rfl, ?_, ?_⟩
  · show (((sortByScoreDesc ((dedupByLink results).map (mkScored taste))).take 5).map
      (scoredPick tm activity)).length = _
    rw [List.length_map, List.length_take, (sortByScoreDesc_perm _).length_eq,
      List.length_map]
  · intro x hx
    exact List.mem_map_of_mem _ hx

end Foxnut
